import Mathlib

/-! LaTeX render service (`main.go`): shallow embedding and verified properties

Go strings are modelled as Lean strings (sequences of Unicode code points, i.e.
well-formed UTF-8).  The pieces of the Go standard library that `main.go` calls
are modelled first, then the functions of `main.go` under their own names.
-/

namespace LatexService

/-! ## Go standard library: `unicode`, `strings`, `strconv` -/

/-- Go `unicode.IsSpace`: the Latin-1 spaces and the code points of category Z
with property Pattern_White_Space. -/
def isSpace (c : Char) : Bool :=
  let n := c.toNat
  n == 0x09 || n == 0x0A || n == 0x0B || n == 0x0C || n == 0x0D || n == 0x20 ||
  n == 0x85 || n == 0xA0 || n == 0x1680 || (0x2000 ≤ n && n ≤ 0x200A) ||
  n == 0x2028 || n == 0x2029 || n == 0x202F || n == 0x205F || n == 0x3000

/-- Go `strings.TrimSpace` on the code points of a string. -/
def trimSpaceChars (s : List Char) : List Char :=
  List.rdropWhile isSpace (s.dropWhile isSpace)

/-- Go `strings.TrimSpace`. -/
def trimSpace (s : String) : String := ⟨trimSpaceChars s.data⟩

/-- The ASCII branch of Go `unicode.ToLower`: `'A'..'Z'` are shifted by `'a' - 'A'`. -/
def asciiToLower (c : Char) : Char :=
  if 'A'.toNat ≤ c.toNat ∧ c.toNat ≤ 'Z'.toNat then Char.ofNat (c.toNat + 32) else c

/-- Go `unicode.ToLower`.  For a rune up to `unicode.MaxASCII` the function is the
ASCII shift; above it the result comes from the case tables of package `unicode`,
which are not part of the repository and are taken as the parameter `caseTable`. -/
def unicodeToLower (caseTable : Char → Char) (c : Char) : Char :=
  if c.toNat ≤ 0x7F then asciiToLower c else caseTable c

/-- Go `strings.ToLower` (both its ASCII fast path and `Map(unicode.ToLower, s)`
map every rune through `unicode.ToLower`). -/
def toLowerChars (caseTable : Char → Char) (s : List Char) : List Char :=
  s.map (unicodeToLower caseTable)

/-- Go `strings.Split(s, sep)` for a non-empty separator: `s` is cut at every
non-overlapping occurrence of `sep`, scanning from the left.  `cur` is the piece
being collected (reversed) and `skip` the number of code points of a matched
separator that are still to be passed over. -/
def splitGo (sep : List Char) : List Char → List Char → Nat → List (List Char)
  | [], cur, _ => [cur.reverse]
  | _ :: cs, cur, skip + 1 => splitGo sep cs cur skip
  | c :: cs, cur, 0 =>
    if sep.isPrefixOf (c :: cs) then cur.reverse :: splitGo sep cs [] (sep.length - 1)
    else splitGo sep cs (c :: cur) 0

/-- Go `strings.Split` for a non-empty separator. -/
def split (s sep : List Char) : List (List Char) := splitGo sep s [] 0

/-- Go `strings.HasPrefix`. -/
def hasPrefix (s pre : String) : Bool := pre.data.isPrefixOf s.data

/-- Go `strings.TrimPrefix`. -/
def trimPrefix (s pre : String) : String :=
  if hasPrefix s pre then ⟨s.data.drop pre.data.length⟩ else s

/-- Go `strconv.ParseBool`; `none` stands for the syntax error. -/
def parseBool (str : String) : Option Bool :=
  if str = "1" ∨ str = "t" ∨ str = "T" ∨ str = "true" ∨ str = "TRUE" ∨ str = "True" then
    some true
  else if str = "0" ∨ str = "f" ∨ str = "F" ∨ str = "false" ∨ str = "FALSE" ∨ str = "False" then
    some false
  else none

/-- The parts of the Go runtime and standard library that `main.go` uses and that
are neither in the repository nor modelled above. -/
structure GoRuntime where
  /-- case tables of package `unicode` (non-ASCII part of `unicode.ToLower`) -/
  caseTable : Char → Char
  /-- result of `runtime.NumCPU()` -/
  numCPU : Int
  /-- results of `strconv.Atoi`, `none` on error -/
  atoi : String → Option Int
  /-- results of `strconv.ParseInt(s, 10, 64)`, `none` on error -/
  parseInt64 : String → Option Int
  /-- results of `time.ParseDuration` in nanoseconds, `none` on error -/
  parseDuration : String → Option Int

/-- A runtime whose case table is the identity, for evaluating examples. -/
def plainRuntime : GoRuntime :=
  { caseTable := id, numCPU := 4, atoi := fun _ => none, parseInt64 := fun _ => none,
    parseDuration := fun _ => none }

/-! ## Requests and responses (`net/http`) -/

/-- Raw bytes. -/
abbrev Bytes := List Nat

/-- The fields of `*http.Request` that the handler reads.  `header` maps a
canonical header name to the values sent under it. -/
structure Request where
  method : String
  header : String → List String
  body : Bytes

/-- Go `http.Header.Get`: the first value of the key, `""` when there is none. -/
def Request.headerGet (r : Request) (key : String) : String := (r.header key).headD ""

/-- What a handler wrote to its `http.ResponseWriter`. -/
inductive Body where
  | text (s : String)
  | bytes (b : Bytes)
  deriving DecidableEq, Repr

/-- Status line, the headers set by the handler, and the body. -/
structure Response where
  status : Nat
  header : List (String × String)
  body : Body
  deriving DecidableEq, Repr

/-- Go `http.Error`: plain-text content type, `nosniff`, the status code, and the
message followed by a newline (`fmt.Fprintln`). -/
def httpError (msg : String) (code : Nat) : Response :=
  { status := code,
    header := [("Content-Type", "text/plain; charset=utf-8"), ("X-Content-Type-Options", "nosniff")],
    body := .text (msg ++ "\n") }

/-! ## `main.go`: configuration -/

/-- The `config` struct; durations are in nanoseconds. -/
structure Config where
  port : String
  apiKey : String
  maxBodyBytes : Int
  commandTimeout : Int
  workerLimit : Int
  allowShellEscape : Bool
  readTimeout : Int
  readHeaderTimeout : Int
  writeTimeout : Int
  idleTimeout : Int

/-- The process environment: `none` for a variable that is not set. -/
abbrev Env := String → Option String

/-- Go `os.Getenv`: the value, `""` when the variable is not set. -/
def osGetenv (env : Env) (key : String) : String := (env key).getD ""

/-- Function `getEnv` of `main.go`. -/
def getEnv (env : Env) (key defaultValue : String) : String :=
  let value := osGetenv env key
  if value = "" then defaultValue else value

/-- Function `getEnvInt` of `main.go`. -/
def getEnvInt (rt : GoRuntime) (env : Env) (key : String) (defaultValue : Int) : Int :=
  let value := trimSpace (osGetenv env key)
  if value = "" then defaultValue
  else match rt.atoi value with
    | none => defaultValue
    | some parsed => parsed

/-- Function `getEnvInt64` of `main.go`. -/
def getEnvInt64 (rt : GoRuntime) (env : Env) (key : String) (defaultValue : Int) : Int :=
  let value := trimSpace (osGetenv env key)
  if value = "" then defaultValue
  else match rt.parseInt64 value with
    | none => defaultValue
    | some parsed => parsed

/-- Function `getEnvDuration` of `main.go`. -/
def getEnvDuration (rt : GoRuntime) (env : Env) (key : String) (defaultValue : Int) : Int :=
  let value := trimSpace (osGetenv env key)
  if value = "" then defaultValue
  else match rt.parseDuration value with
    | none => defaultValue
    | some parsed => parsed

/-- Function `getEnvBool` of `main.go`. -/
def getEnvBool (env : Env) (key : String) (defaultValue : Bool) : Bool :=
  let value := trimSpace (osGetenv env key)
  if value = "" then defaultValue
  else match parseBool value with
    | none => defaultValue
    | some parsed => parsed

/-- One second in nanoseconds (`time.Second`). -/
def second : Int := 1000000000

/-- Function `loadConfig` of `main.go`. -/
def loadConfig (rt : GoRuntime) (env : Env) : Config :=
  let cfg : Config :=
    { port := getEnv env "PORT" "8080",
      apiKey := osGetenv env "LATEX_SERVICE_API_KEY",
      maxBodyBytes := getEnvInt64 rt env "MAX_BODY_BYTES" (2 ^ 20),
      commandTimeout := getEnvDuration rt env "COMMAND_TIMEOUT" (30 * second),
      workerLimit := getEnvInt rt env "WORKER_LIMIT" rt.numCPU,
      allowShellEscape := getEnvBool env "ALLOW_SHELL_ESCAPE" false,
      readTimeout := getEnvDuration rt env "READ_TIMEOUT" (30 * second),
      readHeaderTimeout := getEnvDuration rt env "READ_HEADER_TIMEOUT" (10 * second),
      writeTimeout := getEnvDuration rt env "WRITE_TIMEOUT" (60 * second),
      idleTimeout := getEnvDuration rt env "IDLE_TIMEOUT" (60 * second) }
  let cfg := if cfg.workerLimit < 1 then { cfg with workerLimit := 1 } else cfg
  let cfg := if cfg.maxBodyBytes < 1 then { cfg with maxBodyBytes := 2 ^ 20 } else cfg
  cfg

/-! ## `main.go`: request validation -/

/-- Function `isPlainText` of `main.go`.  `strings.Split(...)[0]` is the head of the split;
the split of a string is never empty (`split_ne_nil`). -/
def isPlainText (rt : GoRuntime) (contentType : String) : Bool :=
  if contentType = "" then false
  else
    let mediaType := toLowerChars rt.caseTable
      (trimSpaceChars ((split contentType.data ";".data).headD []))
    mediaType == "text/plain".data

/-- The content-type predicate in the words of the specification: the part of
the value before its first `;` (all of it when there is none), with surrounding
whitespace trimmed and letters lower-cased, equals `text/plain`. -/
def isPlainTextSpec (rt : GoRuntime) (ct : String) : Prop :=
  toLowerChars rt.caseTable (trimSpaceChars (ct.data.takeWhile (fun c => c != ';')))
    = "text/plain".data

/-- Function `authorize` of `main.go`. -/
def authorize (apiKey : String) (r : Request) : Bool :=
  if apiKey = "" then true
  else if r.headerGet "X-API-Key" = apiKey then true
  else
    let authHeader := r.headerGet "Authorization"
    if hasPrefix authHeader "Bearer " then
      trimSpace (trimPrefix authHeader "Bearer ") == apiKey
    else false

/-! ## The admission semaphore `renderSem` (a buffered channel of `struct{}`) -/

/-- A buffered channel of `struct{}`: its capacity and the number of buffered
elements.  For `renderSem` the buffered elements are the held admission slots. -/
structure Chan where
  cap : Nat
  len : Nat
  deriving DecidableEq, Repr

/-- Go `make(chan struct{}, n)`; a negative size makes `make` panic (`none`). -/
def makeChan (n : Int) : Option Chan :=
  if n < 0 then none else some { cap := n.toNat, len := 0 }

/-- The non-blocking send of `select { case renderSem <- struct{}{}: ... default: ... }`
(nobody is ever waiting to receive from `renderSem`): the send proceeds exactly
when the buffer has room; `none` is the `default` branch. -/
def Chan.trySend (c : Chan) : Option Chan :=
  if c.len < c.cap then some { c with len := c.len + 1 } else none

/-- The blocking receive `<-renderSem`: takes one buffered element; `none` when the
buffer is empty, where the receive would block. -/
def Chan.recv (c : Chan) : Option Chan :=
  if 0 < c.len then some { c with len := c.len - 1 } else none

/-! ## The file system (`os`) and external commands (`os/exec`) -/

/-- A file-system entry. -/
inductive Node where
  | dir
  | file (data : Bytes)
  deriving DecidableEq, Repr

/-- The file system: the existing paths with what is stored at each. -/
abbrev FS := List (String × Node)

/-- A path exists in the file system. -/
def FS.pathExists (fs : FS) (p : String) : Bool := fs.any (fun e => e.1 == p)

/-- Go `filepath.Join(dir, name)` for a clean directory path and a plain file name. -/
def filepathJoin (dir name : String) : String := dir ++ "/" ++ name

/-- Path `p` is the directory `dir` itself or lies below it. -/
def isUnder (dir p : String) : Bool := p == dir || (dir ++ "/").data.isPrefixOf p.data

/-- Effect of a successful `os.MkdirTemp`: the new directory exists. -/
def FS.mkdir (fs : FS) (dir : String) : FS := (dir, Node.dir) :: fs

/-- Effect of a successful `os.WriteFile`: the file holds exactly `data`. -/
def FS.write (fs : FS) (path : String) (data : Bytes) : FS :=
  (path, Node.file data) :: fs.filter (fun e => e.1 != path)

/-- Go `os.ReadFile` on the file-system state: the content of a regular file. -/
def FS.read (fs : FS) (path : String) : Option Bytes :=
  match fs.lookup path with
  | some (Node.file data) => some data
  | _ => none

/-- Effect of a successful `os.RemoveAll(dir)`: `dir` and everything below it is gone. -/
def FS.removeAll (fs : FS) (dir : String) : FS := fs.filter (fun e => !isUnder dir e.1)

/-- What one run of an external command does: its combined output, its error
(`none` for exit status 0; a start failure, a non-zero exit and an expired
context all give `some`), and its effect on the file system. -/
structure ExecResult where
  output : String
  err : Option String
  effect : FS → FS

/-- The behaviour of everything outside the handler during one request: the
operating system, the network and the external tools.  Each field fixes the
outcome of one call that the handler makes. -/
structure Oracle where
  /-- the transport fails while the body is read -/
  bodyReadFails : Bool
  /-- result of `os.MkdirTemp("", "latex")`: the new directory, `none` on error -/
  mkdirTemp : Option String
  /-- the call `os.WriteFile` fails -/
  writeFails : Bool
  /-- what a failed `os.WriteFile` leaves behind -/
  afterFailedWrite : FS → FS
  /-- result of `cmd.CombinedOutput()` for directory, command name and arguments -/
  exec : String → String → List String → ExecResult
  /-- the call `os.ReadFile` fails although the file may be there -/
  readFails : Bool
  /-- the call `os.RemoveAll` fails -/
  removeAllFails : Bool
  /-- what a failed `os.RemoveAll` leaves behind -/
  afterFailedRemove : FS → FS

/-- The observable actions of a handler run, in program order. -/
inductive Effect where
  | semSend (acquired : Bool)
  | semRecv
  | readAll
  | closeBody
  | mkdirTemp
  | writeFile (path : String)
  | withTimeout (d : Int)
  | cancel
  | run (dir name : String) (args : List String)
  | log (name : String) (args : List String) (err output : String)
  | readFile (path : String)
  | removeAll (dir : String)
  | respond (status : Nat)
  deriving DecidableEq, Repr

/-- Result of a stretch of the handler body: the response it wrote, the file
system afterwards and the actions performed, in order. -/
structure Step where
  resp : Response
  fs : FS
  trace : List Effect

/-- Go `io.ReadAll` on `http.MaxBytesReader(w, r.Body, n)`: the whole body, or an
error when the transport fails or the body is longer than `n` bytes (a negative
`n` counts as 0). -/
def readAllMaxBytes (n : Int) (body : Bytes) (transportFails : Bool) : Option Bytes :=
  if transportFails then none
  else if (body.length : Int) > max n 0 then none
  else some body

/-- Result of `runCommand`. -/
structure CmdOut where
  output : String
  err : Option String
  fs : FS
  trace : List Effect

/-- Function `runCommand` of `main.go`: runs the command in `dir`, logs name,
arguments, error and combined output when it fails, returns output and error. -/
def runCommand (o : Oracle) (fs : FS) (dir name : String) (args : List String) : CmdOut :=
  let res := o.exec dir name args
  match res.err with
  | some e =>
    { output := res.output, err := some e, fs := res.effect fs,
      trace := [Effect.run dir name args, Effect.log name args e res.output] }
  | none =>
    { output := res.output, err := none, fs := res.effect fs,
      trace := [Effect.run dir name args] }

/-! ## `main.go`: the handler `renderNativeLatex` -/

/-- The local `pdflatexArgs` of the handler (lines 95-101). -/
def pdflatexArgs (cfg : Config) : List String :=
  let args := ["-halt-on-error", "-interaction=nonstopmode"]
  let args := if cfg.allowShellEscape then args ++ ["-shell-escape"] else args ++ ["-no-shell-escape"]
  args ++ ["document.tex"]

/-- The response of the success path: `w.Header().Set("Content-Type", "image/png")`
and `w.Write(pngData)` (status 200). -/
def pngResponse (pngData : Bytes) : Response :=
  { status := 200, header := [("Content-Type", "image/png")], body := .bytes pngData }

/-- Lines 94-129 of the handler: pdflatex, pdfcrop, pdftoppm, then the read of
`output-1.png` and the response. -/
def runStages (cfg : Config) (o : Oracle) (dir : String) (fs : FS) : Step :=
  let c1 := runCommand o fs dir "pdflatex" (pdflatexArgs cfg)
  match c1.err with
  | some _ => ⟨httpError "pdflatex error" 500, c1.fs, c1.trace ++ [.respond 500]⟩
  | none =>
    let c2 := runCommand o c1.fs dir "pdfcrop" ["document.pdf", "document-cropped.pdf"]
    match c2.err with
    | some _ => ⟨httpError "pdfcrop error" 500, c2.fs, c1.trace ++ c2.trace ++ [.respond 500]⟩
    | none =>
      let c3 := runCommand o c2.fs dir "pdftoppm"
        ["-png", "-r", "150", "document-cropped.pdf", "output"]
      match c3.err with
      | some _ =>
        ⟨httpError "pdftoppm error" 500, c3.fs,
          c1.trace ++ c2.trace ++ c3.trace ++ [.respond 500]⟩
      | none =>
        let pngFilePath := filepathJoin dir "output-1.png"
        match (if o.readFails then none else c3.fs.read pngFilePath) with
        | none =>
          ⟨httpError "Failed to read PNG file" 500, c3.fs,
            c1.trace ++ c2.trace ++ c3.trace ++ [.readFile pngFilePath, .respond 500]⟩
        | some pngData =>
          ⟨pngResponse pngData, c3.fs,
            c1.trace ++ c2.trace ++ c3.trace ++ [.readFile pngFilePath, .respond 200]⟩

/-- Lines 77-129 of the handler, run once the workspace `dir` exists: the write
of `document.tex`, the context with timeout, the stages, and the deferred
`cancel()`. -/
def inWorkspace (cfg : Config) (o : Oracle) (dir : String) (latex : Bytes) (fs : FS) : Step :=
  let latexFilePath := filepathJoin dir "document.tex"
  if o.writeFails then
    ⟨httpError "Failed to write LaTeX file" 500, o.afterFailedWrite fs,
      [.writeFile latexFilePath, .respond 500]⟩
  else
    let s := runStages cfg o dir (fs.write latexFilePath latex)
    ⟨s.resp, s.fs,
      [.writeFile latexFilePath, .withTimeout cfg.commandTimeout] ++ s.trace ++ [.cancel]⟩

/-- Lines 56-129 of the handler, run while the slot is held: body read, emptiness
check, workspace creation, the work inside the workspace, and the deferred
`os.RemoveAll(dir)` and `r.Body.Close()`. -/
def serve (cfg : Config) (o : Oracle) (r : Request) (fs : FS) : Step :=
  match readAllMaxBytes cfg.maxBodyBytes r.body o.bodyReadFails with
  | none =>
    ⟨httpError "Failed to read LaTeX content" 400, fs, [.readAll, .respond 400, .closeBody]⟩
  | some latex =>
    if latex.length = 0 then
      ⟨httpError "Empty LaTeX content" 400, fs, [.readAll, .respond 400, .closeBody]⟩
    else
      match o.mkdirTemp with
      | none =>
        ⟨httpError "Failed to create temporary directory" 500, fs,
          [.readAll, .mkdirTemp, .respond 500, .closeBody]⟩
      | some dir =>
        let s := inWorkspace cfg o dir latex (fs.mkdir dir)
        let fs1 := if o.removeAllFails then o.afterFailedRemove s.fs else s.fs.removeAll dir
        ⟨s.resp, fs1, [.readAll, .mkdirTemp] ++ s.trace ++ [.removeAll dir, .closeBody]⟩

/-- Outcome of lines 35-54 of the handler. -/
inductive Admission where
  | rejected (resp : Response) (trace : List Effect)
  | acquired (sem : Chan)

/-- Lines 35-54 of the handler: method, content type, authorization, then the
non-blocking acquisition of a slot of `renderSem`. -/
def checkAndAcquire (rt : GoRuntime) (cfg : Config) (r : Request) (sem : Chan) : Admission :=
  if r.method ≠ "POST" then
    .rejected (httpError "Method not allowed" 405) [.respond 405]
  else if !isPlainText rt (r.headerGet "Content-Type") then
    .rejected (httpError "Unsupported Content-Type" 415) [.respond 415]
  else if !authorize cfg.apiKey r then
    .rejected (httpError "Unauthorized" 401) [.respond 401]
  else
    match sem.trySend with
    | none => .rejected (httpError "Service busy" 429) [.semSend false, .respond 429]
    | some sem1 => .acquired sem1

/-- The state shared between requests: the semaphore and the file system. -/
structure World where
  sem : Chan
  fs : FS
  deriving DecidableEq, Repr

/-- A finished handler run. -/
structure Result where
  resp : Response
  world : World
  trace : List Effect
  deriving DecidableEq, Repr

/-- The handler returned by `renderNativeLatex(cfg)`, run on its own from start
to return.  `none` means the handler never returns (its deferred `<-renderSem`
blocks). -/
def renderNativeLatex (rt : GoRuntime) (cfg : Config) (o : Oracle) (r : Request)
    (w : World) : Option Result :=
  match checkAndAcquire rt cfg r w.sem with
  | .rejected resp trace => some ⟨resp, w, trace⟩
  | .acquired sem1 =>
    let s := serve cfg o r w.fs
    match sem1.recv with
    | none => none
    | some sem2 => some ⟨s.resp, ⟨sem2, s.fs⟩, [.semSend true] ++ s.trace ++ [.semRecv]⟩

/-! ## Concurrent requests

Handlers of different requests run concurrently and share `renderSem`.  A handler
touches `renderSem` twice: at the non-blocking send and at the deferred receive.
The server is therefore modelled with two kinds of events: a request arrives and
runs lines 35-54, and an admitted request runs the rest of its handler and returns. -/

/-- The server between events: the semaphore, the file system, and the requests
whose handlers hold a slot and have not returned. -/
structure Server where
  sem : Chan
  fs : FS
  inflight : List (Request × Oracle)

/-- An arrival of a request, or the completion of the in-flight handler number `i`. -/
inductive Event where
  | arrive (r : Request) (o : Oracle)
  | finish (i : Nat)

/-- What an event produced: the new server state, the response if one was
written, and the actions performed. -/
structure StepOut where
  server : Server
  resp : Option Response
  trace : List Effect

/-- One event.  A `finish` for a handler that is not in flight changes nothing, and
a handler whose deferred receive would block stays in flight. -/
def Server.step (rt : GoRuntime) (cfg : Config) (s : Server) : Event → StepOut
  | .arrive r o =>
    match checkAndAcquire rt cfg r s.sem with
    | .rejected resp trace => ⟨s, some resp, trace⟩
    | .acquired sem1 =>
      ⟨{ s with sem := sem1, inflight := s.inflight ++ [(r, o)] }, none, [.semSend true]⟩
  | .finish i =>
    match s.inflight.get? i with
    | none => ⟨s, none, []⟩
    | some (r, o) =>
      let st := serve cfg o r s.fs
      match s.sem.recv with
      | none => ⟨s, none, []⟩
      | some sem2 =>
        ⟨{ sem := sem2, fs := st.fs, inflight := s.inflight.eraseIdx i }, some st.resp,
          st.trace ++ [.semRecv]⟩

/-- The server state after a sequence of events. -/
def Server.run (rt : GoRuntime) (cfg : Config) (s : Server) : List Event → Server
  | [] => s
  | e :: es => Server.run rt cfg (Server.step rt cfg s e).server es

/-- The server as `main` starts it, with the freshly made semaphore `sem` and no
handler running. -/
def Server.start (sem : Chan) (fs : FS) : Server := { sem := sem, fs := fs, inflight := [] }

/-! ## Vocabulary for stating properties of a handler run -/

/-- The commands a run invoked, in order. -/
def invoked : List Effect → List String
  | [] => []
  | .run _ name _ :: es => name :: invoked es
  | _ :: es => invoked es

/-- The action touches the semaphore. -/
def Effect.isSem : Effect → Bool
  | .semSend _ => true
  | .semRecv => true
  | _ => false

/-- The three stages in program order (1 = pdflatex, 2 = pdfcrop, 3 = pdftoppm):
command name and arguments as the handler passes them to `runCommand`. -/
def stageCommand (cfg : Config) : Nat → String × List String
  | 1 => ("pdflatex", pdflatexArgs cfg)
  | 2 => ("pdfcrop", ["document.pdf", "document-cropped.pdf"])
  | _ => ("pdftoppm", ["-png", "-r", "150", "document-cropped.pdf", "output"])

/-- The message the handler sends when the stage fails. -/
def stageMessage : Nat → String
  | 1 => "pdflatex error"
  | 2 => "pdfcrop error"
  | _ => "pdftoppm error"

/-- The error with which the environment `o` makes stage `k` end in workspace `dir`. -/
def stageErr (cfg : Config) (o : Oracle) (dir : String) (k : Nat) : Option String :=
  (o.exec dir (stageCommand cfg k).1 (stageCommand cfg k).2).err

/-- Two environments that differ at most in the diagnostics of the external
commands: every call of the operating system has the same outcome in both, and
every command has the same effect on the file system and fails in one exactly
when it fails in the other; the combined output and the error value of a command
may differ arbitrarily. -/
def Oracle.sameUpToDiagnostics (o1 o2 : Oracle) : Prop :=
  o1.bodyReadFails = o2.bodyReadFails ∧ o1.mkdirTemp = o2.mkdirTemp ∧
  o1.writeFails = o2.writeFails ∧ o1.afterFailedWrite = o2.afterFailedWrite ∧
  o1.readFails = o2.readFails ∧ o1.removeAllFails = o2.removeAllFails ∧
  o1.afterFailedRemove = o2.afterFailedRemove ∧
  ∀ dir name args, (o1.exec dir name args).effect = (o2.exec dir name args).effect ∧
    (o1.exec dir name args).err.isSome = (o2.exec dir name args).err.isSome

/-- The action is not a run of pdflatex, or it is one with the arguments `args`. -/
def Effect.pdflatexWith (args : List String) : Effect → Bool
  | .run _ name a => name != "pdflatex" || a == args
  | _ => true

/-- Letter `b` is letter `a` in possibly another case: the two are the same code
point, or they have the same lower-case form and neither is whitespace or `;`. -/
def caseVariant (rt : GoRuntime) (a b : Char) : Prop :=
  a = b ∨ (unicodeToLower rt.caseTable a = unicodeToLower rt.caseTable b ∧
    isSpace a = false ∧ isSpace b = false ∧ a ≠ ';' ∧ b ≠ ';')

instance (rt : GoRuntime) (a b : Char) : Decidable (caseVariant rt a b) := by
  unfold caseVariant
  infer_instance

/-! ## Concrete inputs for evaluating the model -/

/-- A configuration with API key `secret` and two workers. -/
def demoConfig : Config :=
  { port := "8080", apiKey := "secret", maxBodyBytes := 2 ^ 20, commandTimeout := 30 * second,
    workerLimit := 2, allowShellEscape := false, readTimeout := 30 * second,
    readHeaderTimeout := 10 * second, writeTimeout := 60 * second, idleTimeout := 60 * second }

/-- Headers of a well-formed request: plain text, with the right API key. -/
def demoHeader (key : String) : List String :=
  if key = "Content-Type" then ["text/plain; charset=utf-8"]
  else if key = "X-API-Key" then ["secret"]
  else []

/-- A well-formed request with a two-byte body. -/
def demoRequest : Request := { method := "POST", header := demoHeader, body := [36, 36] }

/-- The same request with an empty body. -/
def emptyRequest : Request := { method := "POST", header := demoHeader, body := [] }

/-- A command run that succeeds and leaves `files` behind. -/
def execOk (files : List (String × Node)) : ExecResult :=
  { output := "", err := none, effect := fun fs => files ++ fs }

/-- A command run that fails with the given output and error. -/
def execFail (output err : String) : ExecResult :=
  { output := output, err := some err, effect := fun fs => fs }

/-- The tools when everything works: each stage leaves its output file in the
workspace. -/
def demoExec (dir name : String) (_args : List String) : ExecResult :=
  if name = "pdflatex" then execOk [(filepathJoin dir "document.pdf", .file [1])]
  else if name = "pdfcrop" then execOk [(filepathJoin dir "document-cropped.pdf", .file [2])]
  else execOk [(filepathJoin dir "output-1.png", .file [137, 80, 78, 71])]

/-- An environment in which every call succeeds. -/
def demoOracle : Oracle :=
  { bodyReadFails := false, mkdirTemp := some "/tmp/latex1", writeFails := false,
    afterFailedWrite := id, exec := demoExec, readFails := false, removeAllFails := false,
    afterFailedRemove := id }

/-- The environment `demoOracle` except that the command `name` fails with the
given output and error. -/
def failingAt (name output err : String) : Oracle :=
  { demoOracle with
    exec := fun d n a => if n = name then execFail output err else demoExec d n a }

/-- A request with the wrong method. -/
def getRequest : Request := { demoRequest with method := "GET" }

/-- A request with the wrong content type. -/
def htmlRequest : Request :=
  { demoRequest with header := fun k => if k = "Content-Type" then ["text/html"] else demoHeader k }

/-- A plain-text request without credentials. -/
def anonymousRequest : Request :=
  { demoRequest with header := fun k => if k = "Content-Type" then ["text/plain"] else [] }

/-- A plain-text request whose only credential is the given `Authorization` header. -/
def bearerRequest (authorization : String) : Request :=
  { demoRequest with
    header := fun k =>
      if k = "Content-Type" then ["text/plain"]
      else if k = "Authorization" then [authorization]
      else [] }

/-- An environment with the single variable `ALLOW_SHELL_ESCAPE` set to `v`. -/
def shellEscapeEnv (v : String) : Env :=
  fun k => if k = "ALLOW_SHELL_ESCAPE" then some v else none

/-- Three arrivals of the well-formed request followed by the completion of the
first handler. -/
def demoEvents : List Event :=
  [.arrive demoRequest demoOracle, .arrive demoRequest demoOracle,
    .arrive demoRequest demoOracle, .finish 0]

/-- A world with `cap` slots of which `len` are held, and one unrelated file. -/
def demoWorld (cap len : Nat) : World := { sem := ⟨cap, len⟩, fs := [("/etc/hosts", .file [0])] }

/-! ## Basic facts about the model -/

theorem Chan.recv_of_trySend {c c1 : Chan} (h : c.trySend = some c1) : c1.recv = some c := by
  unfold Chan.trySend at h
  split at h
  · cases h
    cases c
    simp [Chan.recv]
  · cases h

theorem Chan.trySend_of_lt {c : Chan} (h : c.len < c.cap) :
    c.trySend = some ⟨c.cap, c.len + 1⟩ := by
  simp [Chan.trySend, h]

theorem Chan.trySend_of_not_lt {c : Chan} (h : ¬ c.len < c.cap) : c.trySend = none := by
  simp [Chan.trySend, h]

theorem checkAndAcquire_of_valid (rt : GoRuntime) (cfg : Config) (r : Request) (sem : Chan)
    (hm : r.method = "POST") (hct : isPlainText rt (r.headerGet "Content-Type") = true)
    (hauth : authorize cfg.apiKey r = true) :
    checkAndAcquire rt cfg r sem =
      match sem.trySend with
      | none => .rejected (httpError "Service busy" 429) [.semSend false, .respond 429]
      | some sem1 => .acquired sem1 := by
  simp [checkAndAcquire, hm, hct, hauth]

theorem renderNativeLatex_of_slot (rt : GoRuntime) (cfg : Config) (o : Oracle) (r : Request)
    (w : World) (hm : r.method = "POST")
    (hct : isPlainText rt (r.headerGet "Content-Type") = true)
    (hauth : authorize cfg.apiKey r = true) (hslot : w.sem.len < w.sem.cap) :
    renderNativeLatex rt cfg o r w =
      some ⟨(serve cfg o r w.fs).resp, ⟨w.sem, (serve cfg o r w.fs).fs⟩,
        [.semSend true] ++ (serve cfg o r w.fs).trace ++ [.semRecv]⟩ := by
  have h1 := Chan.trySend_of_lt hslot
  have h2 := Chan.recv_of_trySend h1
  simp [renderNativeLatex, checkAndAcquire_of_valid rt cfg r w.sem hm hct hauth, h1, h2]

theorem renderNativeLatex_of_full (rt : GoRuntime) (cfg : Config) (o : Oracle) (r : Request)
    (w : World) (hm : r.method = "POST")
    (hct : isPlainText rt (r.headerGet "Content-Type") = true)
    (hauth : authorize cfg.apiKey r = true) (hfull : ¬ w.sem.len < w.sem.cap) :
    renderNativeLatex rt cfg o r w =
      some ⟨httpError "Service busy" 429, w, [.semSend false, .respond 429]⟩ := by
  simp [renderNativeLatex, checkAndAcquire_of_valid rt cfg r w.sem hm hct hauth,
    Chan.trySend_of_not_lt hfull]

/-! ## C5: validation comes before admission -/

/-- C5: the checks run in the order method, content type, authorization, admission.
A request that is not a POST is answered 405; a POST whose content type is not
plain text is answered 415; a plain-text POST that is not authorized is answered
401.  In each case the handler returns with the world (slot pool included)
exactly as it found it and its only action is the response: no send on the
semaphore is attempted, so the answer is not 429 even when every slot is held. -/
theorem validation_precedes_admission (rt : GoRuntime) (cfg : Config) (o : Oracle)
    (r : Request) (w : World) :
    (r.method ≠ "POST" →
      renderNativeLatex rt cfg o r w =
        some ⟨httpError "Method not allowed" 405, w, [.respond 405]⟩) ∧
    (r.method = "POST" → isPlainText rt (r.headerGet "Content-Type") = false →
      renderNativeLatex rt cfg o r w =
        some ⟨httpError "Unsupported Content-Type" 415, w, [.respond 415]⟩) ∧
    (r.method = "POST" → isPlainText rt (r.headerGet "Content-Type") = true →
      authorize cfg.apiKey r = false →
      renderNativeLatex rt cfg o r w =
        some ⟨httpError "Unauthorized" 401, w, [.respond 401]⟩) := by
  refine ⟨fun hm => ?_, fun hm hct => ?_, fun hm hct hauth => ?_⟩
  · simp [renderNativeLatex, checkAndAcquire, hm]
  · simp [renderNativeLatex, checkAndAcquire, hm, hct]
  · simp [renderNativeLatex, checkAndAcquire, hm, hct, hauth]

/-- Witness for C5 with every slot held: a GET, an HTML POST and a POST without
credentials are answered 405, 415 and 401. -/
theorem validation_precedes_admission_witness :
    renderNativeLatex plainRuntime demoConfig demoOracle getRequest (demoWorld 2 2) =
      some ⟨httpError "Method not allowed" 405, demoWorld 2 2, [.respond 405]⟩ ∧
    renderNativeLatex plainRuntime demoConfig demoOracle htmlRequest (demoWorld 2 2) =
      some ⟨httpError "Unsupported Content-Type" 415, demoWorld 2 2, [.respond 415]⟩ ∧
    renderNativeLatex plainRuntime demoConfig demoOracle anonymousRequest (demoWorld 2 2) =
      some ⟨httpError "Unauthorized" 401, demoWorld 2 2, [.respond 401]⟩ :=
  ⟨(validation_precedes_admission plainRuntime demoConfig demoOracle getRequest
      (demoWorld 2 2)).1 (by decide),
   (validation_precedes_admission plainRuntime demoConfig demoOracle htmlRequest
      (demoWorld 2 2)).2.1 (by decide) (by decide),
   (validation_precedes_admission plainRuntime demoConfig demoOracle anonymousRequest
      (demoWorld 2 2)).2.2 (by decide) (by decide) (by decide)⟩

/-! ## C6: the empty body -/

/-- C6, as stated, fails: with every slot held, an authorized plain-text POST with
an empty body is answered 429 and not 400; and with a free slot the handler
acquires the slot before it reads the body and finds it empty. -/
theorem empty_body_checked_after_admission :
    renderNativeLatex plainRuntime demoConfig demoOracle emptyRequest (demoWorld 2 2) =
      some ⟨httpError "Service busy" 429, demoWorld 2 2, [.semSend false, .respond 429]⟩ ∧
    renderNativeLatex plainRuntime demoConfig demoOracle emptyRequest (demoWorld 2 1) =
      some ⟨httpError "Empty LaTeX content" 400, demoWorld 2 1,
        [.semSend true, .readAll, .respond 400, .closeBody, .semRecv]⟩ := by
  constructor <;> decide

/-- C6 amended: for an authorized plain-text POST whose body is empty (and read
without a transport error), admission comes first.  With a free slot the handler
acquires it, reads the body, answers 400 "Empty LaTeX content", creates no
workspace, runs no stage and releases the slot; with every slot held it answers
429.  Either way the world, slot count included, is the same when the handler
returns as before. -/
theorem empty_body_rejected_after_admission (rt : GoRuntime) (cfg : Config) (o : Oracle)
    (r : Request) (w : World) (hm : r.method = "POST")
    (hct : isPlainText rt (r.headerGet "Content-Type") = true)
    (hauth : authorize cfg.apiKey r = true)
    (hbody : r.body = []) (hread : o.bodyReadFails = false) :
    (w.sem.len < w.sem.cap →
      renderNativeLatex rt cfg o r w =
        some ⟨httpError "Empty LaTeX content" 400, w,
          [.semSend true, .readAll, .respond 400, .closeBody, .semRecv]⟩) ∧
    (¬ w.sem.len < w.sem.cap →
      renderNativeLatex rt cfg o r w =
        some ⟨httpError "Service busy" 429, w, [.semSend false, .respond 429]⟩) := by
  refine ⟨fun hslot => ?_, fun hfull => renderNativeLatex_of_full rt cfg o r w hm hct hauth hfull⟩
  rw [renderNativeLatex_of_slot rt cfg o r w hm hct hauth hslot]
  have hs : serve cfg o r w.fs =
      ⟨httpError "Empty LaTeX content" 400, w.fs, [.readAll, .respond 400, .closeBody]⟩ := by
    simp [serve, readAllMaxBytes, hbody, hread]
  simp [hs]

/-- Witness for the amended C6: one slot free, and both slots held. -/
theorem empty_body_rejected_after_admission_witness :
    renderNativeLatex plainRuntime demoConfig demoOracle emptyRequest (demoWorld 2 1) =
        some ⟨httpError "Empty LaTeX content" 400, demoWorld 2 1,
          [.semSend true, .readAll, .respond 400, .closeBody, .semRecv]⟩ ∧
    renderNativeLatex plainRuntime demoConfig demoOracle emptyRequest (demoWorld 2 2) =
        some ⟨httpError "Service busy" 429, demoWorld 2 2, [.semSend false, .respond 429]⟩ :=
  ⟨(empty_body_rejected_after_admission plainRuntime demoConfig demoOracle emptyRequest
      (demoWorld 2 1) (by decide) (by decide) (by decide) rfl rfl).1 (by decide),
   (empty_body_rejected_after_admission plainRuntime demoConfig demoOracle emptyRequest
      (demoWorld 2 2) (by decide) (by decide) (by decide) rfl rfl).2 (by decide)⟩

/-! ## C4: the slot is released exactly when it was acquired -/

theorem runCommand_trace_noSem (o : Oracle) (fs : FS) (dir name : String) (args : List String) :
    (runCommand o fs dir name args).trace.all (fun e => !e.isSem) = true := by
  cases h : (o.exec dir name args).err <;> simp [runCommand, h, Effect.isSem]

theorem runStages_trace_noSem (cfg : Config) (o : Oracle) (dir : String) (fs : FS) :
    (runStages cfg o dir fs).trace.all (fun e => !e.isSem) = true := by
  have h := runCommand_trace_noSem o
  unfold runStages
  dsimp only
  repeat' split
  all_goals simp only [List.all_append, h, Bool.and_self, Bool.true_and]
  all_goals simp [Effect.isSem]

theorem inWorkspace_trace_noSem (cfg : Config) (o : Oracle) (dir : String) (latex : Bytes)
    (fs : FS) : (inWorkspace cfg o dir latex fs).trace.all (fun e => !e.isSem) = true := by
  have h := runStages_trace_noSem cfg o dir
  unfold inWorkspace
  dsimp only
  split
  · simp [Effect.isSem]
  · simp only [List.all_append, h, Bool.and_self, Bool.true_and]
    simp [Effect.isSem]

theorem serve_trace_noSem (cfg : Config) (o : Oracle) (r : Request) (fs : FS) :
    (serve cfg o r fs).trace.all (fun e => !e.isSem) = true := by
  have h := inWorkspace_trace_noSem cfg o
  unfold serve
  repeat' split
  all_goals simp only [List.all_append, h, Bool.and_self, Bool.true_and]
  all_goals simp [Effect.isSem]

theorem count_eq_zero_of_noSem {tr : List Effect} (h : tr.all (fun e => !e.isSem) = true)
    (e : Effect) (he : e.isSem = true) : tr.count e = 0 := by
  rw [List.count_eq_zero]
  intro hmem
  have := List.all_eq_true.mp h e hmem
  simp [he] at this

/-- The handler always returns: its deferred receive never blocks, because it is
reached only after the handler's own send. -/
theorem renderNativeLatex_returns (rt : GoRuntime) (cfg : Config) (o : Oracle) (r : Request)
    (w : World) :
    (∃ resp trace, checkAndAcquire rt cfg r w.sem = .rejected resp trace ∧
        (∀ e ∈ trace, e ≠ .semSend true ∧ e ≠ .semRecv) ∧
        renderNativeLatex rt cfg o r w = some ⟨resp, w, trace⟩) ∨
    (w.sem.len < w.sem.cap ∧
      renderNativeLatex rt cfg o r w =
        some ⟨(serve cfg o r w.fs).resp, ⟨w.sem, (serve cfg o r w.fs).fs⟩,
          [.semSend true] ++ (serve cfg o r w.fs).trace ++ [.semRecv]⟩) := by
  by_cases hm : r.method = "POST"
  · by_cases hct : isPlainText rt (r.headerGet "Content-Type") = true
    · by_cases hauth : authorize cfg.apiKey r = true
      · by_cases hslot : w.sem.len < w.sem.cap
        · exact Or.inr ⟨hslot, renderNativeLatex_of_slot rt cfg o r w hm hct hauth hslot⟩
        · refine Or.inl ⟨_, _, ?_, ?_, renderNativeLatex_of_full rt cfg o r w hm hct hauth hslot⟩
          · simp [checkAndAcquire_of_valid rt cfg r w.sem hm hct hauth, Chan.trySend_of_not_lt hslot]
          · simp
      · refine Or.inl ⟨httpError "Unauthorized" 401, [.respond 401], ?_, ?_, ?_⟩
        · simp [checkAndAcquire, hm, hct, hauth]
        · simp
        · simp [renderNativeLatex, checkAndAcquire, hm, hct, hauth]
    · refine Or.inl ⟨httpError "Unsupported Content-Type" 415, [.respond 415], ?_, ?_, ?_⟩
      · simp [checkAndAcquire, hm, hct]
      · simp
      · simp [renderNativeLatex, checkAndAcquire, hm, hct]
  · refine Or.inl ⟨httpError "Method not allowed" 405, [.respond 405], ?_, ?_, ?_⟩
    · simp [checkAndAcquire, hm]
    · simp
    · simp [renderNativeLatex, checkAndAcquire, hm]

/-- C4: every run of the handler returns, and when it returns the semaphore is as
it was before the request (the number of held slots is unchanged).  The run
performs exactly as many releases as successful acquisitions, at most one of
each; when the acquisition succeeded the release is the last action of the run;
and a run whose acquisition failed (the busy answer) performs no release.  The
environment `o` is arbitrary, so this covers the body-read error, the empty body,
the failures of workspace creation, of the write, of each stage and of the final
read, and success. -/
theorem slot_released_iff_acquired (rt : GoRuntime) (cfg : Config) (o : Oracle) (r : Request)
    (w : World) :
    ∃ res, renderNativeLatex rt cfg o r w = some res ∧
      res.world.sem = w.sem ∧
      res.trace.count .semRecv = res.trace.count (.semSend true) ∧
      res.trace.count .semRecv ≤ 1 ∧
      (Effect.semSend true ∈ res.trace → res.trace.getLast? = some .semRecv) ∧
      (Effect.semSend false ∈ res.trace → res.trace.count .semRecv = 0) := by
  rcases renderNativeLatex_returns rt cfg o r w with ⟨resp, trace, -, htr, hres⟩ | ⟨-, hres⟩
  · have h1 : trace.count .semRecv = 0 :=
      List.count_eq_zero.mpr (fun hmem => (htr _ hmem).2 rfl)
    have h2 : trace.count (.semSend true) = 0 :=
      List.count_eq_zero.mpr (fun hmem => (htr _ hmem).1 rfl)
    refine ⟨_, hres, rfl, ?_, ?_, ?_, ?_⟩
    · simp [h1, h2]
    · simp [h1]
    · intro hmem
      exact absurd rfl (htr _ hmem).1
    · intro _
      exact h1
  · have hs := serve_trace_noSem cfg o r w.fs
    have h1 := count_eq_zero_of_noSem hs .semRecv rfl
    have h2 := count_eq_zero_of_noSem hs (.semSend true) rfl
    have h3 : Effect.semSend false ∉ (serve cfg o r w.fs).trace := by
      intro hmem
      have := List.all_eq_true.mp hs _ hmem
      simp [Effect.isSem] at this
    refine ⟨_, hres, rfl, ?_, ?_, ?_, ?_⟩
    · simp [List.count_append, List.count_cons, h1, h2]
    · simp [List.count_append, List.count_cons, h1]
    · intro _
      show (([Effect.semSend true] ++ (serve cfg o r w.fs).trace) ++ [Effect.semRecv]).getLast?
        = some Effect.semRecv
      exact List.getLast?_append_of_ne_nil _ (by simp) |>.trans (by simp)
    · intro hmem
      simp [h3] at hmem

/-! ## C1: a failing stage stops the pipeline -/

theorem invoked_append (xs ys : List Effect) : invoked (xs ++ ys) = invoked xs ++ invoked ys := by
  induction xs with
  | nil => rfl
  | cons x xs ih => cases x <;> simp [invoked, ih]

theorem serve_of_workspace (cfg : Config) (o : Oracle) (r : Request) (fs : FS) (latex : Bytes)
    (dir : String) (hbody : readAllMaxBytes cfg.maxBodyBytes r.body o.bodyReadFails = some latex)
    (hne : latex ≠ []) (hdir : o.mkdirTemp = some dir) :
    serve cfg o r fs =
      ⟨(inWorkspace cfg o dir latex (fs.mkdir dir)).resp,
        if o.removeAllFails then o.afterFailedRemove (inWorkspace cfg o dir latex (fs.mkdir dir)).fs
        else (inWorkspace cfg o dir latex (fs.mkdir dir)).fs.removeAll dir,
        [.readAll, .mkdirTemp] ++ (inWorkspace cfg o dir latex (fs.mkdir dir)).trace ++
          [.removeAll dir, .closeBody]⟩ := by
  simp [serve, hbody, hne, hdir]

theorem inWorkspace_of_written (cfg : Config) (o : Oracle) (dir : String) (latex : Bytes)
    (fs : FS) (hw : o.writeFails = false) :
    inWorkspace cfg o dir latex fs =
      ⟨(runStages cfg o dir (fs.write (filepathJoin dir "document.tex") latex)).resp,
        (runStages cfg o dir (fs.write (filepathJoin dir "document.tex") latex)).fs,
        [.writeFile (filepathJoin dir "document.tex"), .withTimeout cfg.commandTimeout] ++
          (runStages cfg o dir (fs.write (filepathJoin dir "document.tex") latex)).trace ++
          [.cancel]⟩ := by
  simp [inWorkspace, hw]

theorem runStages_of_failure (cfg : Config) (o : Oracle) (dir : String) (fs : FS) (k : Nat)
    (hk1 : 1 ≤ k) (hk3 : k ≤ 3) (hprev : ∀ j, 1 ≤ j → j < k → stageErr cfg o dir j = none)
    (hfail : stageErr cfg o dir k ≠ none) :
    (runStages cfg o dir fs).resp = httpError (stageMessage k) 500 ∧
    invoked (runStages cfg o dir fs).trace = ["pdflatex", "pdfcrop", "pdftoppm"].take k ∧
    ∀ p, Effect.readFile p ∉ (runStages cfg o dir fs).trace := by
  obtain ⟨e, he⟩ := Option.ne_none_iff_exists'.mp hfail
  interval_cases k
  · simp only [stageErr, stageCommand] at he
    simp [runStages, runCommand, he, stageMessage, invoked]
  · have h0 := hprev 1 (by omega) (by omega)
    simp only [stageErr, stageCommand] at he h0
    simp [runStages, runCommand, he, h0, stageMessage, invoked]
  · have h0 := hprev 1 (by omega) (by omega)
    have h1 := hprev 2 (by omega) (by omega)
    simp only [stageErr, stageCommand] at he h0 h1
    simp [runStages, runCommand, he, h0, h1, stageMessage, invoked]

/-- C1: take a request that reaches the pipeline (POST, plain text, authorized, a
slot free, a non-empty body read, workspace created, `document.tex` written) and
a stage `k` of 1 = pdflatex, 2 = pdfcrop, 3 = pdftoppm such that the stages
before `k` succeed and stage `k` fails.  Then the handler returns, its response
is `http.Error` with status 500 and the message of stage `k` ("pdflatex error",
"pdfcrop error", "pdftoppm error"), the commands it invoked are exactly the
stages 1 to `k`, in order (no stage after `k`), and it never reads the image
file: the body is the message, not the image. -/
theorem stage_failure_short_circuits (rt : GoRuntime) (cfg : Config) (o : Oracle)
    (r : Request) (w : World) (latex : Bytes) (dir : String)
    (hm : r.method = "POST") (hct : isPlainText rt (r.headerGet "Content-Type") = true)
    (hauth : authorize cfg.apiKey r = true) (hslot : w.sem.len < w.sem.cap)
    (hbody : readAllMaxBytes cfg.maxBodyBytes r.body o.bodyReadFails = some latex)
    (hne : latex ≠ []) (hdir : o.mkdirTemp = some dir) (hw : o.writeFails = false)
    (k : Nat) (hk1 : 1 ≤ k) (hk3 : k ≤ 3)
    (hprev : ∀ j, 1 ≤ j → j < k → stageErr cfg o dir j = none)
    (hfail : stageErr cfg o dir k ≠ none) :
    ∃ res, renderNativeLatex rt cfg o r w = some res ∧
      res.resp = httpError (stageMessage k) 500 ∧
      invoked res.trace = ["pdflatex", "pdfcrop", "pdftoppm"].take k ∧
      (∀ p, Effect.readFile p ∉ res.trace) ∧
      (∀ png, res.resp.body ≠ .bytes png) := by
  obtain ⟨h1, h2, h3⟩ := runStages_of_failure cfg o dir
    ((w.fs.mkdir dir).write (filepathJoin dir "document.tex") latex) k hk1 hk3 hprev hfail
  refine ⟨_, renderNativeLatex_of_slot rt cfg o r w hm hct hauth hslot, ?_, ?_, ?_, ?_⟩
  · simp [serve_of_workspace cfg o r w.fs latex dir hbody hne hdir,
      inWorkspace_of_written cfg o dir latex _ hw, h1]
  · simp [serve_of_workspace cfg o r w.fs latex dir hbody hne hdir,
      inWorkspace_of_written cfg o dir latex _ hw, invoked, invoked_append, h2]
  · intro p
    simp [serve_of_workspace cfg o r w.fs latex dir hbody hne hdir,
      inWorkspace_of_written cfg o dir latex _ hw, h3]
  · intro png
    simp [serve_of_workspace cfg o r w.fs latex dir hbody hne hdir,
      inWorkspace_of_written cfg o dir latex _ hw, h1, httpError]

/-- Witness for C1: pdfcrop (stage 2) fails after pdflatex succeeded. -/
theorem stage_failure_short_circuits_witness :
    ∃ res, renderNativeLatex plainRuntime demoConfig (failingAt "pdfcrop" "boom" "exit status 1")
        demoRequest (demoWorld 2 0) = some res ∧
      res.resp = httpError "pdfcrop error" 500 ∧
      invoked res.trace = ["pdflatex", "pdfcrop"] ∧
      (∀ p, Effect.readFile p ∉ res.trace) ∧
      (∀ png, res.resp.body ≠ .bytes png) :=
  stage_failure_short_circuits plainRuntime demoConfig (failingAt "pdfcrop" "boom" "exit status 1")
    demoRequest (demoWorld 2 0) [36, 36] "/tmp/latex1" (by decide) (by decide) (by decide)
    (by decide) (by decide) (by decide) rfl rfl 2 (by decide) (by decide)
    (by intro j h1 h2; interval_cases j; decide) (by decide)

/-! ## C3: the workspace is removed -/

theorem removeAll_pathExists (fs : FS) (dir p : String) (h : isUnder dir p = true) :
    (fs.removeAll dir).pathExists p = false := by
  simp only [FS.pathExists, FS.removeAll, List.any_eq_false, List.mem_filter, beq_iff_eq]
  rintro ⟨q, n⟩ ⟨-, hq⟩ rfl
  simp [h] at hq

/-- C3: for a request that gets as far as a successful workspace creation (POST,
plain text, authorized, a slot free, a non-empty body read, `os.MkdirTemp`
returning `dir`), and for every outcome of the later steps (the environment is
otherwise arbitrary: the write, each command and the final read may fail or
succeed, and the commands may create any files), the handler returns and, when
`os.RemoveAll` succeeds, neither `dir` nor any path below it exists in the file
system the handler leaves behind.  The removal is one of the handler's actions. -/
theorem workspace_removed (rt : GoRuntime) (cfg : Config) (o : Oracle) (r : Request)
    (w : World) (latex : Bytes) (dir : String)
    (hm : r.method = "POST") (hct : isPlainText rt (r.headerGet "Content-Type") = true)
    (hauth : authorize cfg.apiKey r = true) (hslot : w.sem.len < w.sem.cap)
    (hbody : readAllMaxBytes cfg.maxBodyBytes r.body o.bodyReadFails = some latex)
    (hne : latex ≠ []) (hdir : o.mkdirTemp = some dir) (hrm : o.removeAllFails = false) :
    ∃ res, renderNativeLatex rt cfg o r w = some res ∧
      (∀ p, isUnder dir p = true → res.world.fs.pathExists p = false) ∧
      Effect.removeAll dir ∈ res.trace := by
  refine ⟨_, renderNativeLatex_of_slot rt cfg o r w hm hct hauth hslot, ?_, ?_⟩
  · intro p hp
    simp only [serve_of_workspace cfg o r w.fs latex dir hbody hne hdir, hrm]
    exact removeAll_pathExists _ dir p hp
  · simp [serve_of_workspace cfg o r w.fs latex dir hbody hne hdir]

/-- Witness for C3: a run in which pdftoppm fails after the earlier stages left
their files in the workspace. -/
theorem workspace_removed_witness :
    ∃ res, renderNativeLatex plainRuntime demoConfig (failingAt "pdftoppm" "" "signal: killed")
        demoRequest (demoWorld 2 0) = some res ∧
      (∀ p, isUnder "/tmp/latex1" p = true → res.world.fs.pathExists p = false) ∧
      Effect.removeAll "/tmp/latex1" ∈ res.trace :=
  workspace_removed plainRuntime demoConfig (failingAt "pdftoppm" "" "signal: killed")
    demoRequest (demoWorld 2 0) [36, 36] "/tmp/latex1" (by decide) (by decide) (by decide)
    (by decide) (by decide) (by decide) rfl rfl

/-! ## C7: diagnostics stay out of the response -/

theorem runCommand_fs (o : Oracle) (fs : FS) (dir name : String) (args : List String) :
    (runCommand o fs dir name args).fs = (o.exec dir name args).effect fs := by
  cases h : (o.exec dir name args).err <;> simp [runCommand, h]

theorem runCommand_err (o : Oracle) (fs : FS) (dir name : String) (args : List String) :
    (runCommand o fs dir name args).err = (o.exec dir name args).err := by
  cases h : (o.exec dir name args).err <;> simp [runCommand, h]

theorem runStages_same (cfg : Config) (o1 o2 : Oracle) (dir : String) (fs : FS)
    (hr : o1.readFails = o2.readFails)
    (h : ∀ dir name args, (o1.exec dir name args).effect = (o2.exec dir name args).effect ∧
      (o1.exec dir name args).err.isSome = (o2.exec dir name args).err.isSome) :
    (runStages cfg o1 dir fs).resp = (runStages cfg o2 dir fs).resp ∧
    (runStages cfg o1 dir fs).fs = (runStages cfg o2 dir fs).fs := by
  obtain ⟨e1, s1⟩ := h dir "pdflatex" (pdflatexArgs cfg)
  obtain ⟨e2, s2⟩ := h dir "pdfcrop" ["document.pdf", "document-cropped.pdf"]
  obtain ⟨e3, s3⟩ := h dir "pdftoppm" ["-png", "-r", "150", "document-cropped.pdf", "output"]
  unfold runStages
  simp only [runCommand_fs, runCommand_err, e1, e2, e3, hr]
  cases a1 : (o1.exec dir "pdflatex" (pdflatexArgs cfg)).err <;>
    cases b1 : (o2.exec dir "pdflatex" (pdflatexArgs cfg)).err <;>
    simp [a1, b1] at s1 ⊢
  cases a2 : (o1.exec dir "pdfcrop" ["document.pdf", "document-cropped.pdf"]).err <;>
    cases b2 : (o2.exec dir "pdfcrop" ["document.pdf", "document-cropped.pdf"]).err <;>
    simp [a2, b2] at s2 ⊢
  cases a3 : (o1.exec dir "pdftoppm" ["-png", "-r", "150", "document-cropped.pdf", "output"]).err <;>
    cases b3 : (o2.exec dir "pdftoppm" ["-png", "-r", "150", "document-cropped.pdf", "output"]).err <;>
    simp [a3, b3] at s3 ⊢
  split <;> simp

theorem serve_same (cfg : Config) (o1 o2 : Oracle) (r : Request) (fs : FS)
    (h : o1.sameUpToDiagnostics o2) :
    (serve cfg o1 r fs).resp = (serve cfg o2 r fs).resp ∧
    (serve cfg o1 r fs).fs = (serve cfg o2 r fs).fs := by
  obtain ⟨hb, hd, hw, hpw, hr, hra, hpr, hexec⟩ := h
  have hst := fun dir fs => runStages_same cfg o1 o2 dir fs hr hexec
  unfold serve
  rw [hb, hd]
  cases readAllMaxBytes cfg.maxBodyBytes r.body o2.bodyReadFails with
  | none => simp
  | some latex =>
    by_cases hl : latex.length = 0
    · simp [hl]
    · cases o2.mkdirTemp with
      | none => simp [hl]
      | some dir =>
        simp only [hl, if_false, inWorkspace, hw, hpw, hra, hpr]
        cases o2.writeFails with
        | true => simp
        | false => simp [(hst dir _).1, (hst dir _).2]

/-- C7: the response does not depend on the diagnostics of the external commands.
For one request in one world and two environments that agree on everything except
the combined output and the error value of the commands (each command fails in
one environment exactly when it fails in the other), both runs of the handler
return, with the same response (status, headers and body) and the same world.
In particular, when a stage fails in both runs, the response is the same
whatever that stage printed and whatever error it ended with. -/
theorem diagnostics_not_leaked (rt : GoRuntime) (cfg : Config) (o1 o2 : Oracle) (r : Request)
    (w : World) (h : o1.sameUpToDiagnostics o2) :
    ∃ res1 res2, renderNativeLatex rt cfg o1 r w = some res1 ∧
      renderNativeLatex rt cfg o2 r w = some res2 ∧
      res1.resp = res2.resp ∧ res1.world = res2.world := by
  obtain ⟨hresp, hfs⟩ := serve_same cfg o1 o2 r w.fs h
  rcases renderNativeLatex_returns rt cfg o1 r w with ⟨resp, trace, hadm, -, hres⟩ | ⟨hslot, hres⟩
  · refine ⟨_, ⟨resp, w, trace⟩, hres, ?_, rfl, rfl⟩
    simp [renderNativeLatex, hadm]
  · rcases renderNativeLatex_returns rt cfg o2 r w with ⟨resp, trace, hadm, -, -⟩ | ⟨-, hres2⟩
    · exfalso
      have h1 := Chan.trySend_of_lt hslot
      unfold checkAndAcquire at hadm
      split at hadm
      · rename_i hm
        simp [renderNativeLatex, checkAndAcquire, hm] at hres
      · split at hadm
        · rename_i hm hct
          simp [renderNativeLatex, checkAndAcquire, hm, hct] at hres
        · split at hadm
          · rename_i hm hct hauth
            simp [renderNativeLatex, checkAndAcquire, hm, hct, hauth] at hres
          · simp [h1] at hadm
    · exact ⟨_, _, hres, hres2, hresp, by simp [hfs]⟩

/-- Witness for C7: pdflatex fails in both runs, with different output and
different errors; the responses are the same. -/
theorem diagnostics_not_leaked_witness :
    ∃ res1 res2,
      renderNativeLatex plainRuntime demoConfig
        (failingAt "pdflatex" "! Undefined control sequence." "exit status 1")
        demoRequest (demoWorld 2 0) = some res1 ∧
      renderNativeLatex plainRuntime demoConfig
        (failingAt "pdflatex" "/srv/private/notes.tex not found" "signal: killed")
        demoRequest (demoWorld 2 0) = some res2 ∧
      res1.resp = res2.resp ∧ res1.world = res2.world :=
  diagnostics_not_leaked plainRuntime demoConfig _ _ demoRequest (demoWorld 2 0)
    ⟨rfl, rfl, rfl, rfl, rfl, rfl, rfl, fun dir name args => by
      by_cases hn : name = "pdflatex" <;> simp [failingAt, hn, execFail]⟩

/-! ## C10: the authorization predicate -/

theorem hasPrefix_iff (s pre : String) :
    hasPrefix s pre = true ↔ ∃ rest : String, s = pre ++ rest := by
  unfold hasPrefix
  rw [List.isPrefixOf_iff_prefix]
  constructor
  · rintro ⟨t, ht⟩
    exact ⟨⟨t⟩, String.ext (by simp [String.data_append, ht])⟩
  · rintro ⟨rest, rfl⟩
    exact ⟨rest.data, by simp [String.data_append]⟩

theorem trimPrefix_append (pre rest : String) : trimPrefix (pre ++ rest) pre = rest := by
  have h : hasPrefix (pre ++ rest) pre = true := (hasPrefix_iff _ _).mpr ⟨rest, rfl⟩
  simp [trimPrefix, h, String.data_append]

/-- C10: for every configured key and every request, `authorize` accepts exactly
when the key is empty, or the `X-API-Key` header equals the key, or the
`Authorization` header is `Bearer ` followed by a remainder that, with
surrounding whitespace trimmed, equals the key.  Hence with a non-empty key a
request with neither header is rejected, a request whose only credential is a
wrong `X-API-Key` or a wrong bearer token is rejected, and with an empty key
every request is accepted. -/
theorem authorize_iff (apiKey : String) (r : Request) :
    (authorize apiKey r = true ↔
      apiKey = "" ∨ r.headerGet "X-API-Key" = apiKey ∨
        ∃ rest : String, r.headerGet "Authorization" = "Bearer " ++ rest ∧
          trimSpace rest = apiKey) ∧
    (apiKey ≠ "" → r.header "X-API-Key" = [] → r.header "Authorization" = [] →
      authorize apiKey r = false) ∧
    (apiKey ≠ "" → r.headerGet "X-API-Key" ≠ apiKey →
      (∀ rest : String, r.headerGet "Authorization" = "Bearer " ++ rest →
        trimSpace rest ≠ apiKey) →
      authorize apiKey r = false) ∧
    (apiKey = "" → authorize apiKey r = true) := by
  have main : authorize apiKey r = true ↔
      apiKey = "" ∨ r.headerGet "X-API-Key" = apiKey ∨
        ∃ rest : String, r.headerGet "Authorization" = "Bearer " ++ rest ∧
          trimSpace rest = apiKey := by
    unfold authorize
    by_cases hk : apiKey = ""
    · simp [hk]
    · by_cases hx : r.headerGet "X-API-Key" = apiKey
      · simp [hk, hx]
      · by_cases hp : hasPrefix (r.headerGet "Authorization") "Bearer " = true
        · obtain ⟨rest, hrest⟩ := (hasPrefix_iff _ _).mp hp
          have hp2 : hasPrefix ("Bearer " ++ rest) "Bearer " = true := hrest ▸ hp
          simp only [hk, hx, if_false, false_or, hrest, hp2, if_true, trimPrefix_append,
            beq_iff_eq]
          constructor
          · intro h
            exact ⟨rest, rfl, h⟩
          · rintro ⟨rest2, h1, h2⟩
            have : rest = rest2 := by
              have := congrArg String.data h1
              simp only [String.data_append] at this
              exact String.ext (List.append_cancel_left this)
            rw [this]
            exact h2
        · have hno : ¬ ∃ rest : String, r.headerGet "Authorization" = "Bearer " ++ rest :=
            fun h => hp ((hasPrefix_iff _ _).mpr h)
          simp only [hk, hx, if_false, false_or, hp, Bool.false_eq_true]
          constructor
          · intro h
            exact absurd h (by simp)
          · rintro ⟨rest, h1, -⟩
            exact absurd ⟨rest, h1⟩ hno
  refine ⟨main, ?_, ?_, ?_⟩
  · intro hk hx ha
    rw [Bool.eq_false_iff]
    intro h
    rcases main.mp h with h1 | h1 | ⟨rest, h1, -⟩
    · exact hk h1
    · simp only [Request.headerGet, hx, List.headD_nil] at h1
      exact hk h1.symm
    · simp only [Request.headerGet, ha, List.headD_nil] at h1
      have := congrArg String.data h1
      simp [String.data_append] at this
  · intro hk hx ha
    rw [Bool.eq_false_iff]
    intro h
    rcases main.mp h with h1 | h1 | ⟨rest, h1, h2⟩
    · exact hk h1
    · exact hx h1
    · exact ha rest h1 h2
  · intro hk
    exact main.mpr (Or.inl hk)

/-- Witness for C10: no credentials and a wrong bearer token are rejected under the
key `secret`; a bearer token padded with blanks is accepted; with an empty key a
request without credentials is accepted. -/
theorem authorize_iff_witness :
    authorize "secret" anonymousRequest = false ∧
    authorize "secret" (bearerRequest "Bearer wrong") = false ∧
    authorize "secret" (bearerRequest "Bearer  secret ") = true ∧
    authorize "" anonymousRequest = true :=
  ⟨(authorize_iff "secret" anonymousRequest).2.1 (by decide) rfl rfl,
   (authorize_iff "secret" (bearerRequest "Bearer wrong")).2.2.1 (by decide) (by decide)
     (fun rest h => by
        have h1 : rest = "wrong" := by
          have := congrArg String.data h
          have h2 : "Bearer ".data ++ "wrong".data = "Bearer ".data ++ rest.data := this
          exact String.ext (List.append_cancel_left h2).symm
        rw [h1]
        decide),
   (authorize_iff "secret" (bearerRequest "Bearer  secret ")).1.mpr
     (Or.inr (Or.inr ⟨" secret ", rfl, by decide⟩)),
   (authorize_iff "" anonymousRequest).2.2.2 rfl⟩

/-! ## C9: the shell-escape flag -/

theorem runStages_trace_pdflatex (cfg : Config) (o : Oracle) (dir : String) (fs : FS) :
    (runStages cfg o dir fs).trace.all (Effect.pdflatexWith (pdflatexArgs cfg)) = true := by
  have h : ∀ fs name args, (name != "pdflatex" || args == pdflatexArgs cfg) = true →
      (runCommand o fs dir name args).trace.all (Effect.pdflatexWith (pdflatexArgs cfg))
        = true := by
    intro fs name args hn
    cases he : (o.exec dir name args).err <;>
      simp [runCommand, he, Effect.pdflatexWith] <;> simpa using hn
  have h1 := fun fs => h fs "pdflatex" (pdflatexArgs cfg) (by simp)
  have h2 := fun fs => h fs "pdfcrop" ["document.pdf", "document-cropped.pdf"]
    (by rw [Bool.or_eq_true]; exact Or.inl (by decide))
  have h3 := fun fs => h fs "pdftoppm" ["-png", "-r", "150", "document-cropped.pdf", "output"]
    (by rw [Bool.or_eq_true]; exact Or.inl (by decide))
  unfold runStages
  dsimp only
  repeat' split
  all_goals simp only [List.all_append, h1, h2, h3, Bool.and_self, Bool.true_and]
  all_goals simp [Effect.pdflatexWith]

theorem serve_trace_pdflatex (cfg : Config) (o : Oracle) (r : Request) (fs : FS) :
    (serve cfg o r fs).trace.all (Effect.pdflatexWith (pdflatexArgs cfg)) = true := by
  have h := runStages_trace_pdflatex cfg o
  unfold serve inWorkspace
  dsimp only
  repeat' split
  all_goals simp only [List.all_append, h, Bool.and_self, Bool.true_and]
  all_goals simp [Effect.pdflatexWith]

theorem trimSpace_of_blank (v : String) (h : ∀ c ∈ v.data, isSpace c = true) :
    trimSpace v = "" := by
  have h1 : v.data.dropWhile isSpace = [] := List.dropWhile_eq_nil_iff.mpr h
  apply String.ext
  simp [trimSpace, trimSpaceChars, h1, List.rdropWhile]

theorem loadConfig_allowShellEscape (rt : GoRuntime) (env : Env) :
    (loadConfig rt env).allowShellEscape = getEnvBool env "ALLOW_SHELL_ESCAPE" false := by
  unfold loadConfig
  dsimp only
  split <;> split <;> rfl

/-- C9: the pdflatex argument list is `-halt-on-error`, `-interaction=nonstopmode`,
then `-shell-escape` when `allowShellEscape` is set and `-no-shell-escape`
otherwise, then `document.tex`; so exactly one of the two flags is present.
Every run of the handler returns, and whenever it runs pdflatex it passes exactly
this list, whatever the request and the environment are.  `loadConfig` leaves
`allowShellEscape` false when `ALLOW_SHELL_ESCAPE` is unset, consists of
whitespace only, or (trimmed) is not accepted by `strconv.ParseBool`. -/
theorem pdflatex_flag_from_config :
    (∀ cfg : Config, pdflatexArgs cfg =
      ["-halt-on-error", "-interaction=nonstopmode",
        if cfg.allowShellEscape then "-shell-escape" else "-no-shell-escape",
        "document.tex"]) ∧
    (∀ cfg : Config, ("-shell-escape" ∈ pdflatexArgs cfg ↔ cfg.allowShellEscape = true) ∧
      ("-no-shell-escape" ∈ pdflatexArgs cfg ↔ cfg.allowShellEscape = false)) ∧
    (∀ (rt : GoRuntime) (cfg : Config) (o : Oracle) (r : Request) (w : World),
      ∃ res, renderNativeLatex rt cfg o r w = some res ∧
        ∀ dir args, Effect.run dir "pdflatex" args ∈ res.trace → args = pdflatexArgs cfg) ∧
    (∀ (rt : GoRuntime) (env : Env),
      (env "ALLOW_SHELL_ESCAPE" = none ∨
        (∃ v, env "ALLOW_SHELL_ESCAPE" = some v ∧ ∀ c ∈ v.data, isSpace c = true) ∨
        (∃ v, env "ALLOW_SHELL_ESCAPE" = some v ∧ parseBool (trimSpace v) = none)) →
      (loadConfig rt env).allowShellEscape = false) := by
  refine ⟨?_, ?_, ?_, ?_⟩
  · intro cfg
    cases h : cfg.allowShellEscape <;> simp [pdflatexArgs, h]
  · intro cfg
    cases h : cfg.allowShellEscape <;> simp [pdflatexArgs, h]
  · intro rt cfg o r w
    rcases renderNativeLatex_returns rt cfg o r w with ⟨resp, trace, hadm, -, hres⟩ | ⟨-, hres⟩
    · refine ⟨_, hres, ?_⟩
      intro dir args hmem
      exfalso
      unfold checkAndAcquire at hadm
      repeat' split at hadm
      all_goals first
        | (cases hadm; simp at hmem)
        | cases hadm
    · refine ⟨_, hres, ?_⟩
      intro dir args hmem
      have hs := serve_trace_pdflatex cfg o r w.fs
      simp only [List.mem_append, List.mem_cons, List.mem_singleton, List.not_mem_nil,
        or_false, false_or, reduceCtorEq] at hmem
      have := List.all_eq_true.mp hs _ hmem
      simpa [Effect.pdflatexWith] using this
  · intro rt env h
    rw [loadConfig_allowShellEscape]
    unfold getEnvBool osGetenv
    rcases h with h | ⟨v, h, hv⟩ | ⟨v, h, hv⟩
    · have : trimSpace "" = "" := by decide
      simp [h, this]
    · simp [h, trimSpace_of_blank v hv]
    · simp [h, hv]

/-- Witness for C9: unset, blank and unparseable values of `ALLOW_SHELL_ESCAPE`
leave the flag off. -/
theorem pdflatex_flag_from_config_witness :
    (loadConfig plainRuntime (fun _ => none)).allowShellEscape = false ∧
    (loadConfig plainRuntime (shellEscapeEnv "  ")).allowShellEscape = false ∧
    (loadConfig plainRuntime (shellEscapeEnv "yes")).allowShellEscape = false :=
  ⟨pdflatex_flag_from_config.2.2.2 plainRuntime (fun _ => none) (Or.inl rfl),
   pdflatex_flag_from_config.2.2.2 plainRuntime (shellEscapeEnv "  ")
     (Or.inr (Or.inl ⟨"  ", rfl, by decide⟩)),
   pdflatex_flag_from_config.2.2.2 plainRuntime (shellEscapeEnv "yes")
     (Or.inr (Or.inr ⟨"yes", rfl, by decide⟩))⟩

/-! ## C8: the content-type predicate -/

theorem splitGo_ne_nil (sep : List Char) (s cur : List Char) (skip : Nat) :
    splitGo sep s cur skip ≠ [] := by
  induction s generalizing cur skip with
  | nil => simp [splitGo]
  | cons c cs ih =>
    cases skip with
    | succ n => simpa [splitGo] using ih cur n
    | zero =>
      unfold splitGo
      split
      · simp
      · exact ih _ _

theorem split_ne_nil (s sep : List Char) : split s sep ≠ [] := splitGo_ne_nil sep s [] 0

theorem splitGo_head (c0 : Char) (s cur : List Char) :
    (splitGo [c0] s cur 0).headD [] = cur.reverse ++ s.takeWhile (fun c => c != c0) := by
  induction s generalizing cur with
  | nil => simp [splitGo]
  | cons c cs ih =>
    unfold splitGo
    by_cases h : c0 = c
    · subst h
      simp [List.isPrefixOf, List.takeWhile]
    · have h2 : (c != c0) = true := by simpa using fun h3 => h h3.symm
      have hpre : ¬ (List.isPrefixOf [c0] (c :: cs) = true) := by simp [List.isPrefixOf, h]
      rw [if_neg hpre, ih]
      simp [List.takeWhile, h2]

theorem split_head (s : List Char) :
    (split s ";".data).headD [] = s.takeWhile (fun c => c != ';') := by
  have := splitGo_head ';' s []
  simpa [split] using this

theorem isPlainText_iff (rt : GoRuntime) (ct : String) :
    isPlainText rt ct = true ↔ isPlainTextSpec rt ct := by
  unfold isPlainText isPlainTextSpec
  by_cases h : ct = ""
  · subst h
    simp [trimSpaceChars, toLowerChars, List.rdropWhile]
  · simp only [h, if_false, beq_iff_eq]
    rw [split_head]

theorem takeWhile_append_sep (p : Char → Bool) (l r : List Char) (x : Char) (hx : p x = false) :
    (l ++ x :: r).takeWhile p = (l ++ [x]).takeWhile p := by
  induction l with
  | nil => simp [List.takeWhile, hx]
  | cons a l ih =>
    simp only [List.cons_append, List.takeWhile_cons]
    split
    · rw [ih]
    · rfl

theorem takeWhile_concat_sep (p : Char → Bool) (l : List Char) (x : Char) (hx : p x = false) :
    (l ++ [x]).takeWhile p = l.takeWhile p := by
  induction l with
  | nil => simp [List.takeWhile, hx]
  | cons a l ih =>
    simp only [List.cons_append, List.takeWhile_cons]
    split
    · rw [ih]
    · rfl

theorem forall₂_takeWhile {R : Char → Char → Prop} (p : Char → Bool)
    (hp : ∀ a b, R a b → p a = p b) {l l2 : List Char} (h : List.Forall₂ R l l2) :
    List.Forall₂ R (l.takeWhile p) (l2.takeWhile p) := by
  induction h with
  | nil => exact List.Forall₂.nil
  | cons hab _ ih =>
    simp only [List.takeWhile_cons, ← hp _ _ hab]
    split
    · exact List.Forall₂.cons hab ih
    · exact List.Forall₂.nil

theorem forall₂_dropWhile {R : Char → Char → Prop} (p : Char → Bool)
    (hp : ∀ a b, R a b → p a = p b) {l l2 : List Char} (h : List.Forall₂ R l l2) :
    List.Forall₂ R (l.dropWhile p) (l2.dropWhile p) := by
  induction h with
  | nil => exact List.Forall₂.nil
  | cons hab hrest ih =>
    simp only [List.dropWhile_cons, ← hp _ _ hab]
    split
    · exact ih
    · exact List.Forall₂.cons hab hrest

theorem forall₂_trimSpaceChars {R : Char → Char → Prop}
    (hp : ∀ a b, R a b → isSpace a = isSpace b) {l l2 : List Char} (h : List.Forall₂ R l l2) :
    List.Forall₂ R (trimSpaceChars l) (trimSpaceChars l2) := by
  unfold trimSpaceChars List.rdropWhile
  rw [List.forall₂_reverse_iff]
  apply forall₂_dropWhile isSpace hp
  rw [List.forall₂_reverse_iff]
  exact forall₂_dropWhile isSpace hp h

theorem forall₂_map_eq {R : Char → Char → Prop} (f : Char → Char)
    (hf : ∀ a b, R a b → f a = f b) {l l2 : List Char} (h : List.Forall₂ R l l2) :
    l.map f = l2.map f := by
  induction h with
  | nil => rfl
  | cons hab _ ih => rw [List.map_cons, List.map_cons, hf _ _ hab, ih]

theorem isPlainTextSpec_caseVariant (rt : GoRuntime) (ct ct2 : String)
    (h : List.Forall₂ (caseVariant rt) ct.data ct2.data) :
    isPlainTextSpec rt ct ↔ isPlainTextSpec rt ct2 := by
  have hsemi : ∀ a b, caseVariant rt a b → (a != ';') = (b != ';') := by
    rintro a b (rfl | ⟨-, -, -, ha, hb⟩)
    · rfl
    · exact (bne_iff_ne.mpr ha).trans (bne_iff_ne.mpr hb).symm
  have hspace : ∀ a b, caseVariant rt a b → isSpace a = isSpace b := by
    rintro a b (rfl | ⟨-, ha, hb, -, -⟩)
    · rfl
    · rw [ha, hb]
  have hlow : ∀ a b, caseVariant rt a b →
      unicodeToLower rt.caseTable a = unicodeToLower rt.caseTable b := by
    rintro a b (rfl | ⟨h1, -⟩)
    · rfl
    · exact h1
  have h1 := forall₂_trimSpaceChars hspace (forall₂_takeWhile (fun c => c != ';') hsemi h)
  have h2 := forall₂_map_eq (unicodeToLower rt.caseTable) hlow h1
  unfold isPlainTextSpec toLowerChars
  rw [h2]

/-- C8: for every string `ct`, `isPlainText ct` is true exactly when the part of
`ct` before its first `;` (all of `ct` when there is none), with surrounding
whitespace trimmed and letters lower-cased, equals `text/plain`.  Hence
appending `;` and any parameters to `ct` does not change the result; replacing
letters by case variants does not change it; and the empty string,
`text/plainx` and `text/html` are rejected. -/
theorem isPlainText_exact_media_type (rt : GoRuntime) :
    (∀ ct : String, isPlainText rt ct = true ↔ isPlainTextSpec rt ct) ∧
    (∀ ct params : String, isPlainText rt (ct ++ ";" ++ params) = isPlainText rt ct) ∧
    (∀ ct ct2 : String, List.Forall₂ (caseVariant rt) ct.data ct2.data →
      isPlainText rt ct = isPlainText rt ct2) ∧
    isPlainText rt "" = false ∧ isPlainText rt "text/plainx" = false ∧
    isPlainText rt "text/html" = false := by
  refine ⟨isPlainText_iff rt, ?_, ?_, ?_, ?_, ?_⟩
  · intro ct params
    rw [Bool.eq_iff_iff, isPlainText_iff, isPlainText_iff]
    unfold isPlainTextSpec
    have : (ct ++ ";" ++ params).data = ct.data ++ ';' :: params.data := by
      simp [String.data_append]
    rw [this, takeWhile_append_sep _ _ _ _ (by decide), takeWhile_concat_sep _ _ _ (by decide)]
  · intro ct ct2 h
    rw [Bool.eq_iff_iff, isPlainText_iff, isPlainText_iff]
    exact isPlainTextSpec_caseVariant rt ct ct2 h
  · rfl
  · rw [Bool.eq_false_iff, Ne, isPlainText_iff]
    simp [isPlainTextSpec, trimSpaceChars, toLowerChars, List.rdropWhile, List.takeWhile,
      List.dropWhile, isSpace]
  · rw [Bool.eq_false_iff, Ne, isPlainText_iff]
    simp [isPlainTextSpec, trimSpaceChars, toLowerChars, List.rdropWhile, List.takeWhile,
      List.dropWhile, isSpace]

/-- Witness for C8: a change of letter case does not change the verdict. -/
theorem isPlainText_exact_media_type_witness :
    isPlainText plainRuntime "TEXT/Plain ; charset=utf-8" =
      isPlainText plainRuntime "text/plain ; charset=UTF-8" :=
  (isPlainText_exact_media_type plainRuntime).2.2.1 _ _ (by decide)

/-! ## C2: the admission bound -/

theorem checkAndAcquire_acquired {rt : GoRuntime} {cfg : Config} {r : Request} {sem sem1 : Chan}
    (h : checkAndAcquire rt cfg r sem = .acquired sem1) :
    sem.len < sem.cap ∧ sem1 = ⟨sem.cap, sem.len + 1⟩ := by
  by_cases hm : r.method = "POST"
  · by_cases hct : isPlainText rt (r.headerGet "Content-Type") = true
    · by_cases hauth : authorize cfg.apiKey r = true
      · rw [checkAndAcquire_of_valid rt cfg r sem hm hct hauth] at h
        by_cases hlt : sem.len < sem.cap
        · rw [Chan.trySend_of_lt hlt] at h
          cases h
          exact ⟨hlt, rfl⟩
        · rw [Chan.trySend_of_not_lt hlt] at h
          cases h
      · simp [checkAndAcquire, hm, hct, hauth] at h
    · simp [checkAndAcquire, hm, hct] at h
  · simp [checkAndAcquire, hm] at h

/-- The server invariant: the held slots are within capacity and are as many as
the handlers in flight. -/
theorem Server.step_invariant (rt : GoRuntime) (cfg : Config) (s : Server) (e : Event)
    (h : s.sem.len ≤ s.sem.cap ∧ s.sem.len = s.inflight.length) :
    (Server.step rt cfg s e).server.sem.cap = s.sem.cap ∧
    (Server.step rt cfg s e).server.sem.len ≤ s.sem.cap ∧
    (Server.step rt cfg s e).server.sem.len = (Server.step rt cfg s e).server.inflight.length := by
  obtain ⟨h1, h2⟩ := h
  cases e with
  | arrive r o =>
    cases hadm : checkAndAcquire rt cfg r s.sem with
    | rejected resp trace =>
      simp only [Server.step, hadm]
      exact ⟨trivial, h1, h2⟩
    | acquired sem1 =>
      obtain ⟨hlt, rfl⟩ := checkAndAcquire_acquired hadm
      simp only [Server.step, hadm, List.length_append, List.length_singleton]
      exact ⟨trivial, hlt, by rw [h2]⟩
  | finish i =>
    cases hget : s.inflight.get? i with
    | none =>
      simp only [Server.step, hget]
      exact ⟨trivial, h1, h2⟩
    | some job =>
      obtain ⟨r, o⟩ := job
      have hi : i < s.inflight.length := by
        rw [List.get?_eq_some] at hget
        exact hget.1
      have hrecv : s.sem.recv = some ⟨s.sem.cap, s.sem.len - 1⟩ := by
        have : 0 < s.sem.len := by omega
        simp [Chan.recv, this]
      simp only [Server.step, hget, hrecv, List.length_eraseIdx, if_pos hi]
      exact ⟨trivial, by omega, by rw [h2]⟩

theorem Server.run_invariant (rt : GoRuntime) (cfg : Config) (s : Server) (evs : List Event)
    (h : s.sem.len ≤ s.sem.cap ∧ s.sem.len = s.inflight.length) :
    (Server.run rt cfg s evs).sem.cap = s.sem.cap ∧
    (Server.run rt cfg s evs).sem.len ≤ s.sem.cap ∧
    (Server.run rt cfg s evs).sem.len = (Server.run rt cfg s evs).inflight.length := by
  induction evs generalizing s with
  | nil => exact ⟨rfl, h.1, h.2⟩
  | cons e es ih =>
    obtain ⟨hc, hl, hi⟩ := Server.step_invariant rt cfg s e h
    have := ih (Server.step rt cfg s e).server ⟨hc ▸ hl, hi⟩
    unfold Server.run
    rw [hc] at this
    exact this

theorem makeChan_of_pos {n : Int} {c : Chan} (hn : 1 ≤ n) (hc : makeChan n = some c) :
    c = ⟨n.toNat, 0⟩ ∧ 1 ≤ c.cap := by
  unfold makeChan at hc
  rw [if_neg (by omega)] at hc
  cases hc
  exact ⟨rfl, by show 1 ≤ n.toNat; omega⟩

/-- The worker limit that `loadConfig` returns is at least 1, so `main` always
creates `renderSem` with a positive capacity. -/
theorem loadConfig_workerLimit_pos (rt : GoRuntime) (env : Env) :
    1 ≤ (loadConfig rt env).workerLimit := by
  unfold loadConfig
  dsimp only
  split <;> split <;> simp only [] <;> omega

/-- C2: let `main` create `renderSem` with a configured capacity `N ≥ 1`, and let
any sequence of request arrivals and handler completions follow, starting with no
slot held.  In the state reached, the capacity is still `N`, the number of held
slots is at most `N`, and it equals the number of handlers in flight.  A request
arriving in that state that passes the method, content-type and authorization
checks acquires a slot when fewer than `N` are held; when `N` are held it is
answered at once with `http.Error("Service busy", 429)`, the state is unchanged,
and the only actions of its handler are the failed non-blocking send and the
response: no body read, no workspace, no command. -/
theorem admission_never_exceeds_capacity (rt : GoRuntime) (cfg : Config) (c : Chan)
    (hN : 1 ≤ cfg.workerLimit) (hc : makeChan cfg.workerLimit = some c) (fs0 : FS)
    (evs : List Event) :
    (Server.run rt cfg (Server.start c fs0) evs).sem.cap = cfg.workerLimit.toNat ∧
    (Server.run rt cfg (Server.start c fs0) evs).sem.len ≤ cfg.workerLimit.toNat ∧
    (Server.run rt cfg (Server.start c fs0) evs).sem.len =
      (Server.run rt cfg (Server.start c fs0) evs).inflight.length ∧
    ∀ (r : Request) (o : Oracle), r.method = "POST" →
      isPlainText rt (r.headerGet "Content-Type") = true → authorize cfg.apiKey r = true →
      ((Server.run rt cfg (Server.start c fs0) evs).sem.len < cfg.workerLimit.toNat →
        Server.step rt cfg (Server.run rt cfg (Server.start c fs0) evs) (.arrive r o) =
          ⟨{ Server.run rt cfg (Server.start c fs0) evs with
              sem := ⟨cfg.workerLimit.toNat,
                (Server.run rt cfg (Server.start c fs0) evs).sem.len + 1⟩,
              inflight := (Server.run rt cfg (Server.start c fs0) evs).inflight ++ [(r, o)] },
            none, [.semSend true]⟩) ∧
      ((Server.run rt cfg (Server.start c fs0) evs).sem.len = cfg.workerLimit.toNat →
        Server.step rt cfg (Server.run rt cfg (Server.start c fs0) evs) (.arrive r o) =
          ⟨Server.run rt cfg (Server.start c fs0) evs, some (httpError "Service busy" 429),
            [.semSend false, .respond 429]⟩ ∧
        renderNativeLatex rt cfg o r
            ⟨(Server.run rt cfg (Server.start c fs0) evs).sem,
              (Server.run rt cfg (Server.start c fs0) evs).fs⟩ =
          some ⟨httpError "Service busy" 429,
            ⟨(Server.run rt cfg (Server.start c fs0) evs).sem,
              (Server.run rt cfg (Server.start c fs0) evs).fs⟩,
            [.semSend false, .respond 429]⟩) := by
  obtain ⟨rfl, -⟩ := makeChan_of_pos hN hc
  obtain ⟨h1, h2, h3⟩ := Server.run_invariant rt cfg
    (Server.start ⟨cfg.workerLimit.toNat, 0⟩ fs0) evs ⟨Nat.zero_le _, rfl⟩
  generalize Server.run rt cfg (Server.start ⟨cfg.workerLimit.toNat, 0⟩ fs0) evs = s at h1 h2 h3 ⊢
  change s.sem.cap = cfg.workerLimit.toNat at h1
  change s.sem.len ≤ cfg.workerLimit.toNat at h2
  refine ⟨h1, h2, h3, ?_⟩
  intro r o hm hct hauth
  constructor
  · intro hlt
    have hlt2 : s.sem.len < s.sem.cap := by omega
    simp [Server.step, checkAndAcquire_of_valid rt cfg r s.sem hm hct hauth, Chan.trySend_of_lt hlt2, h1]
  · intro hfull
    have hfull2 : ¬ s.sem.len < s.sem.cap := by omega
    refine ⟨?_, renderNativeLatex_of_full rt cfg o r ⟨s.sem, s.fs⟩ hm hct hauth hfull2⟩
    simp [Server.step, checkAndAcquire_of_valid rt cfg r s.sem hm hct hauth,
      Chan.trySend_of_not_lt hfull2]

/-- Witness for C2 with two workers: after three arrivals and one completion the
held slots are within capacity, and a request that arrives after two admitted
ones, while both slots are held, gets the busy answer from its handler. -/
theorem admission_never_exceeds_capacity_witness :
    (Server.run plainRuntime demoConfig (Server.start ⟨2, 0⟩ []) demoEvents).sem.len ≤
      demoConfig.workerLimit.toNat ∧
    renderNativeLatex plainRuntime demoConfig demoOracle demoRequest
        ⟨(Server.run plainRuntime demoConfig (Server.start ⟨2, 0⟩ []) (demoEvents.take 2)).sem,
          (Server.run plainRuntime demoConfig (Server.start ⟨2, 0⟩ []) (demoEvents.take 2)).fs⟩ =
      some ⟨httpError "Service busy" 429,
        ⟨(Server.run plainRuntime demoConfig (Server.start ⟨2, 0⟩ []) (demoEvents.take 2)).sem,
          (Server.run plainRuntime demoConfig (Server.start ⟨2, 0⟩ []) (demoEvents.take 2)).fs⟩,
        [.semSend false, .respond 429]⟩ :=
  ⟨(admission_never_exceeds_capacity plainRuntime demoConfig ⟨2, 0⟩ (by decide) (by decide) []
      demoEvents).2.1,
   (((admission_never_exceeds_capacity plainRuntime demoConfig ⟨2, 0⟩ (by decide) (by decide) []
      (demoEvents.take 2)).2.2.2 demoRequest demoOracle (by decide) (by decide)
        (by decide)).2 (by decide)).2⟩

end LatexService
